import Mathlib

/-!
Verification development for the real-time synchronization subsystem of the
cartographer repository (package internal/api/websocket): the message
envelope catalog (message.go), client sessions (client.go), the connection
registry / hub (hub.go) and the transport upgrade handler.

The Go code is shallowly embedded: JSON documents are modelled by an
inductive tree type, `chan` buffers by lists with an explicit capacity
check (a non-blocking send on a full buffer takes the `default` branch),
the hub registry map by a list of client records keyed by their id (the
upgrade handler assigns each client a fresh UUID, so the id plays the role
of the Go map key, i.e. of pointer identity), and the hub run loop by a
step function on a loop state consuming one event at a time.  External
library calls (encoding/json marshalling of arbitrary values, time
formatting) are either given a concrete total model or passed in as a
function parameter where their failure behaviour matters.
-/

set_option maxRecDepth 65536

namespace Cartographer

/-- JSON document tree: the model of Go JSON values
(`json.RawMessage` payloads, `interface\x7b\x7d` snapshots,
`map[string]interface\x7b\x7d` deltas).  Numbers are modelled by `Nat`,
which is enough for the values this subsystem exchanges; an object is an
association list of fields. -/
inductive Json where
  | null : Json
  | bool (b : Bool) : Json
  | num (n : Nat) : Json
  | str (s : String) : Json
  | arr (xs : List Json) : Json
  | obj (fields : List (String × Json)) : Json
deriving Repr

/-- Go type `MessageType string` from message.go. -/
abbrev MessageType := String

/-- message.go: MessageTypeTaskCreated. -/
def MessageTypeTaskCreated : MessageType := "task.created"
/-- message.go: MessageTypeTaskUpdated. -/
def MessageTypeTaskUpdated : MessageType := "task.updated"
/-- message.go: MessageTypeTaskDeleted. -/
def MessageTypeTaskDeleted : MessageType := "task.deleted"
/-- message.go: MessageTypeProjectCreated. -/
def MessageTypeProjectCreated : MessageType := "project.created"
/-- message.go: MessageTypeProjectUpdated. -/
def MessageTypeProjectUpdated : MessageType := "project.updated"
/-- message.go: MessageTypeBoardUpdated. -/
def MessageTypeBoardUpdated : MessageType := "board.updated"
/-- message.go: MessageTypePing. -/
def MessageTypePing : MessageType := "ping"
/-- message.go: MessageTypePong. -/
def MessageTypePong : MessageType := "pong"
/-- message.go: MessageTypeError. -/
def MessageTypeError : MessageType := "error"

/-- message.go: the `Message` wire envelope.
`Timestamp time.Time` is modelled by a `Nat` tick count (its RFC3339 wire
rendering is modelled by an injective numeric JSON encoding);
`Data json.RawMessage` with `omitempty` is modelled by `Option Json`
(`none` = nil raw message, omitted on the wire); `Error string` with
`omitempty` is omitted exactly when empty. -/
structure Message where
  type : MessageType
  timestamp : Nat
  data : Option Json
  error : String
deriving Repr

/-- message.go: the `TaskEvent` payload.  `Changes map[string]interface\x7b\x7d`
is modelled by an association list (`[]` = nil map, omitted by
`omitempty`); `Task interface\x7b\x7d` by `Option Json` (`none` = nil,
omitted by `omitempty`). -/
structure TaskEvent where
  taskID : String
  boardID : String
  action : String
  changes : List (String × Json)
  task : Option Json
deriving Repr

/-- encoding/json marshalling of a `TaskEvent` value, at the JSON-tree
level: fields in struct order, `changes` and `task` subject to
`omitempty`. -/
def marshalTaskEvent (e : TaskEvent) : Json :=
  Json.obj
    ([("task_id", Json.str e.taskID),
      ("board_id", Json.str e.boardID),
      ("action", Json.str e.action)]
     ++ (if e.changes.isEmpty then [] else [("changes", Json.obj e.changes)])
     ++ (match e.task with
         | none => []
         | some t => [("task", t)]))

/-- encoding/json unmarshalling into a `TaskEvent`: fields are looked up
by name; an absent field keeps its zero value; a present field of the
wrong shape is an unmarshalling error (`none`). -/
def unmarshalTaskEvent (j : Json) : Option TaskEvent :=
  match j with
  | Json.obj fields => do
      let taskID ← match fields.lookup "task_id" with
        | none => some ""
        | some (Json.str s) => some s
        | some _ => none
      let boardID ← match fields.lookup "board_id" with
        | none => some ""
        | some (Json.str s) => some s
        | some _ => none
      let action ← match fields.lookup "action" with
        | none => some ""
        | some (Json.str s) => some s
        | some _ => none
      let changes ← match fields.lookup "changes" with
        | none => some []
        | some (Json.obj cs) => some cs
        | some _ => none
      let task ← match fields.lookup "task" with
        | none => some none
        | some t => some (some t)
      some ⟨taskID, boardID, action, changes, task⟩
  | _ => none

/-- encoding/json marshalling of the `Message` envelope at the JSON-tree
level: `type`, `timestamp`, then `data` and `error` subject to
`omitempty`. -/
def marshalMessage (m : Message) : Json :=
  Json.obj
    ([("type", Json.str m.type),
      ("timestamp", Json.num m.timestamp)]
     ++ (match m.data with
         | none => []
         | some d => [("data", d)])
     ++ (if m.error.isEmpty then [] else [("error", Json.str m.error)]))

/-- encoding/json unmarshalling of a wire document into a `Message`
envelope, as performed by `Client.handleIncomingMessage`: a non-object
document or a wrongly-typed field is an error; absent fields keep their
zero values. -/
def unmarshalMessage (j : Json) : Option Message :=
  match j with
  | Json.obj fields => do
      let t ← match fields.lookup "type" with
        | none => some ""
        | some (Json.str s) => some s
        | some _ => none
      let ts ← match fields.lookup "timestamp" with
        | none => some 0
        | some (Json.num n) => some n
        | some _ => none
      let d ← match fields.lookup "data" with
        | none => some none
        | some v => some (some v)
      let e ← match fields.lookup "error" with
        | none => some ""
        | some (Json.str s) => some s
        | some _ => none
      some ⟨t, ts, d, e⟩
  | _ => none

/-- message.go `NewMessage`: wraps an already-marshalled payload in an
envelope stamped with the current time (passed explicitly as `now`). -/
def NewMessage (msgType : MessageType) (rawData : Option Json) (now : Nat) : Message :=
  { type := msgType, timestamp := now, data := rawData, error := "" }

/-- message.go `NewTaskUpdatedMessage`: builds the `task.updated` event
payload and wraps it via `NewMessage`. -/
def NewTaskUpdatedMessage (taskID boardID : String)
    (changes : List (String × Json)) (task : Option Json) (now : Nat) : Message :=
  NewMessage MessageTypeTaskUpdated
    (some (marshalTaskEvent ⟨taskID, boardID, "updated", changes, task⟩)) now

/-- message.go `NewErrorMessage`: builds an `error` envelope carrying an
`ErrorEvent\x7bcode, message, details\x7d` payload. -/
def NewErrorMessage (code message details : String) (now : Nat) : Message :=
  { type := MessageTypeError,
    timestamp := now,
    data := some (Json.obj
      ([("code", Json.str code), ("message", Json.str message)]
       ++ (if details.isEmpty then [] else [("details", Json.str details)]))),
    error := "" }

/-- client.go: the capacity of the per-client buffered outbound channel
`send chan []byte` (`make(chan []byte, 256)` in `NewClient`). -/
def queueCapacity : Nat := 256

/-- hub.go: the capacity of the hub-level buffered relay channel
`broadcast chan []byte` (`make(chan []byte, 256)` in `NewHub`). -/
def relayCapacity : Nat := 256

/-- client.go: `pongWait`, the read-deadline window, in seconds. -/
def pongWait : Nat := 60

/-- client.go: the `Client` session record.  The `send` channel buffer is
the list of queued outbound wire documents; `sendClosed` records whether
`close(c.send)` has been executed; `readDeadline` models the connection
read deadline set by `SetReadDeadline`.  The upgrade handler gives every
client a fresh UUID id, so `id` stands for the Go pointer identity used
as the registry map key. -/
structure Client where
  id : String
  filters : List (String × String)
  send : List Json
  sendClosed : Bool
  readDeadline : Nat
deriving Repr

/-- client.go `NewClient`: fresh session with an empty 256-slot outbound
buffer and no filters. -/
def NewClient (id : String) : Client :=
  { id := id, filters := [], send := [], sendClosed := false, readDeadline := 0 }

/-- client.go `Client.SetFilter`: map assignment `c.filters[key] = value`,
modelled as replacing any existing binding for `key`. -/
def Client.SetFilter (c : Client) (key value : String) : Client :=
  { c with filters := (key, value) :: c.filters.eraseP (fun p => p.1 == key) }

/-- client.go `Client.GetFilter`: map lookup returning `(value, exists)`,
modelled as an `Option`. -/
def Client.GetFilter (c : Client) (key : String) : Option String :=
  c.filters.lookup key

/-- client.go `Client.sendPong`: builds a pong envelope stamped `now`,
marshals it, and performs a non-blocking send on the own session
outbound buffer (a full buffer drops the pong). -/
def Client.sendPong (now : Nat) (c : Client) : Client :=
  let d := marshalMessage { type := MessageTypePong, timestamp := now, data := none, error := "" }
  if c.send.length < queueCapacity then { c with send := c.send ++ [d] } else c

/-- client.go `Client.sendError`: marshals an error envelope and performs
a non-blocking send on the outbound buffer of the session. -/
def Client.sendError (code message details : String) (now : Nat) (c : Client) : Client :=
  let d := marshalMessage (NewErrorMessage code message details now)
  if c.send.length < queueCapacity then { c with send := c.send ++ [d] } else c

/-- client.go `Client.handleIncomingMessage`: unmarshal the inbound wire
document (failure sends an INVALID_MESSAGE error envelope; the `details`
string carried by the Go error value is modelled by a fixed placeholder),
then switch on the envelope kind: ping answers with a pong, pong resets
the read deadline, anything else is logged and ignored. -/
def Client.handleIncomingMessage (now : Nat) (c : Client) (frame : Json) : Client :=
  match unmarshalMessage frame with
  | none => c.sendError "INVALID_MESSAGE" "Invalid message format" "unmarshal error" now
  | some msg =>
      if msg.type = MessageTypePing then c.sendPong now
      else if msg.type = MessageTypePong then { c with readDeadline := now + pongWait }
      else c

/-- hub.go: the `Hub`.  `clients` is the registry map (keyed by client
identity, see `Client.id`); `relay` is the buffer of the 256-slot
`broadcast` channel.  The unbuffered register/unregister channels and the
shutdown channel are modelled by the events consumed by `runStep`. -/
structure Hub where
  clients : List Client
  relay : List Json
deriving Repr

/-- hub.go `NewHub`: empty registry, empty relay buffer. -/
def NewHub : Hub := { clients := [], relay := [] }

/-- hub.go `Hub.ClientCount`: size of the registry. -/
def Hub.ClientCount (h : Hub) : Nat := h.clients.length

/-- Membership test `_, ok := h.clients[client]` of the registry map. -/
def Hub.hasClient (h : Hub) (c : Client) : Bool :=
  h.clients.any (fun x => x.id == c.id)

/-- hub.go `Run`, register case: `h.clients[client] = true`.  Inserting a
key already present leaves the map (as a set of sessions) unchanged. -/
def Hub.registerClient (h : Hub) (c : Client) : Hub :=
  if h.hasClient c then h else { h with clients := h.clients ++ [c] }

/-- hub.go `Run`, unregister case: if the client is present it is deleted
from the registry and its send channel closed; otherwise nothing happens.
Returns the updated hub together with the closed registry entries. -/
def Hub.unregisterClient (h : Hub) (c : Client) : Hub × List Client :=
  if h.hasClient c then
    ({ h with clients := h.clients.filter (fun x => x.id != c.id) },
     (h.clients.filter (fun x => x.id == c.id)).map (fun x => { x with sendClosed := true }))
  else (h, [])

/-- hub.go `Hub.broadcastToAll`, per-client body: a non-blocking send of
the relayed document into the buffer of the client; on a full buffer the
`default` branch closes the channel and deletes the client, i.e. the
client is dropped from the registry (`none`). -/
def deliverRelay (data : Json) (c : Client) : Option Client :=
  if c.send.length < queueCapacity then some { c with send := c.send ++ [data] } else none

/-- hub.go `Hub.broadcastToAll`: iterate the registry delivering `data`
non-blockingly to each client; clients with a full buffer are closed and
removed.  Returns the updated hub and the evicted clients (their send
channels closed). -/
def Hub.broadcastToAll (h : Hub) (data : Json) : Hub × List Client :=
  ({ h with clients := h.clients.filterMap (deliverRelay data) },
   (h.clients.filter (fun c => decide (queueCapacity ≤ c.send.length))).map
     (fun c => { c with sendClosed := true }))

/-- hub.go `Hub.BroadcastMessage`: marshal the envelope once (the
encoding/json call is a parameter, since its failure depends on the
payload bytes); on failure, log and return the error; on success, a
non-blocking send onto the bounded relay — a full relay drops the
message (logged) and still returns nil.  Totality of this function is the
model of the select/default: the caller is never blocked. -/
def Hub.BroadcastMessage (marshal : Message → Except String Json)
    (h : Hub) (msg : Message) : Hub × Option String :=
  match marshal msg with
  | Except.error e => (h, some e)
  | Except.ok data =>
      if h.relay.length < relayCapacity then ({ h with relay := h.relay ++ [data] }, none)
      else (h, none)

/-- hub.go `Hub.BroadcastToFiltered`, per-client body: deliver only if
`GetFilter filterKey` exists and equals `filterValue`, with a non-blocking
send; a full buffer merely skips this client (it stays registered and its
channel stays open). -/
def deliverFiltered (data : Json) (filterKey filterValue : String) (c : Client) : Client :=
  if c.GetFilter filterKey = some filterValue then
    if c.send.length < queueCapacity then { c with send := c.send ++ [data] } else c
  else c

/-- hub.go `Hub.BroadcastToFiltered`: marshal once (parameterized as in
`Hub.BroadcastMessage`), then iterate the registry delivering to matching
clients only; never mutates the registry itself. -/
def Hub.BroadcastToFiltered (marshal : Message → Except String Json)
    (h : Hub) (msg : Message) (filterKey filterValue : String) : Hub × Option String :=
  match marshal msg with
  | Except.error e => (h, some e)
  | Except.ok data =>
      ({ h with clients := h.clients.map (deliverFiltered data filterKey filterValue) }, none)

/-- hub.go `Hub.closeAllClients`: close the queue of every session and empty
the registry.  Returns the emptied hub and the closed clients. -/
def Hub.closeAllClients (h : Hub) : Hub × List Client :=
  ({ h with clients := [] }, h.clients.map (fun c => { c with sendClosed := true }))

/-- One event consumed by the `select` of hub.go `Hub.Run`: a receive on
the register, unregister or broadcast channel, or the closed shutdown
channel becoming ready. -/
inductive HubEvent where
  | register (c : Client)
  | unregister (c : Client)
  | relayDeliver
  | shutdownReady
deriving Repr

/-- State of the `Run` loop: the hub plus whether the loop is still
executing (`running = false` once `Run` has returned after the shutdown
case). -/
structure LoopState where
  hub : Hub
  running : Bool
deriving Repr

/-- hub.go `Hub.Run`: one iteration of the event loop.  A loop that has
returned consumes no further events; the relay case pops the oldest
relayed document and fans it out via `broadcastToAll`; the shutdown case
runs `closeAllClients` and returns from `Run`. -/
def runStep (s : LoopState) (e : HubEvent) : LoopState :=
  if s.running then
    match e with
    | HubEvent.register c => { s with hub := s.hub.registerClient c }
    | HubEvent.unregister c => { s with hub := (s.hub.unregisterClient c).1 }
    | HubEvent.relayDeliver =>
        match s.hub.relay with
        | [] => s
        | d :: rest =>
            { s with hub := (Hub.broadcastToAll { s.hub with relay := rest } d).1 }
    | HubEvent.shutdownReady => { hub := (s.hub.closeAllClients).1, running := false }
  else s

/-- hub.go `Hub.RegisterClient` performs `h.register <- client`, a send on
an unbuffered channel whose only receiver is the `select` of `Hub.Run`:
the send — and hence the `RegisterClient` call — completes exactly when
the run loop is still running; once `Run` has returned there is no
receiver and the call blocks its goroutine forever. -/
def registerCallReturns (s : LoopState) : Bool := s.running

/-- A Register or Unregister call against a running hub, as in the
Register/Unregister sequences of the testable properties of the spec. -/
inductive RegOp where
  | reg (c : Client)
  | unreg (c : Client)
deriving Repr

/-- Effect of one Register/Unregister call on a running hub (the
corresponding case of the `Run` loop). -/
def applyRegOp (h : Hub) : RegOp → Hub
  | RegOp.reg c => h.registerClient c
  | RegOp.unreg c => (h.unregisterClient c).1

/-- Effect of a finite sequence of Register/Unregister calls. -/
def applyRegOps (h : Hub) (ops : List RegOp) : Hub :=
  ops.foldl applyRegOp h

/-- The raw number of Register calls in a sequence. -/
def totalRegisters (ops : List RegOp) : Nat :=
  (ops.filter (fun op => match op with | RegOp.reg _ => true | RegOp.unreg _ => false)).length

/-- The number of Register calls that targeted a session not present at
the moment of the call (each such call grows the registry by one). -/
def effectiveRegisters : Hub → List RegOp → Nat
  | _, [] => 0
  | h, RegOp.reg c :: rest =>
      (if h.hasClient c then 0 else 1) + effectiveRegisters (h.registerClient c) rest
  | h, RegOp.unreg c :: rest => effectiveRegisters (h.unregisterClient c).1 rest

/-- The number of Unregister calls that targeted a still-present session
(each such call shrinks the registry by one). -/
def effectiveUnregisters : Hub → List RegOp → Nat
  | _, [] => 0
  | h, RegOp.reg c :: rest => effectiveUnregisters (h.registerClient c) rest
  | h, RegOp.unreg c :: rest =>
      (if h.hasClient c then 1 else 0) + effectiveUnregisters (h.unregisterClient c).1 rest

/-- The registry holds at most one session per identity (always true for
hubs reachable by register/unregister from the empty hub). -/
def nodupIds (h : Hub) : Prop := (h.clients.map Client.id).Nodup

/-- The part of an HTTP upgrade request that part_003 `Handler.ServeHTTP`
inspects: the method, the optional `project_id` and `board_id` query
parameters (`""` when absent, as returned by `Query().Get`), and whether
`upgrader.Upgrade` succeeds (an external outcome). -/
structure HttpRequest where
  method : String
  queryProjectID : String
  queryBoardID : String
  upgradeOk : Bool
deriving Repr

/-- Observable outcome of part_003 `Handler.ServeHTTP`. -/
inductive ServeOutcome where
  | methodNotAllowed
  | upgradeFailed
  | connected (clientID : String)
deriving Repr

/-- part_003 `Handler.ServeHTTP`: reject non-GET with 405 before any
upgrade; otherwise upgrade (failure logged, nothing registered), generate
a client id (the fresh UUID is a parameter), build the session, install
the scope filters present in the query, and register it with the hub. -/
def ServeHTTP (r : HttpRequest) (clientID : String) (s : LoopState) :
    ServeOutcome × LoopState :=
  if r.method ≠ "GET" then (ServeOutcome.methodNotAllowed, s)
  else if ¬ r.upgradeOk then (ServeOutcome.upgradeFailed, s)
  else
    let c0 := NewClient clientID
    let c1 := if r.queryProjectID ≠ "" then c0.SetFilter "project_id" r.queryProjectID else c0
    let c2 := if r.queryBoardID ≠ "" then c1.SetFilter "board_id" r.queryBoardID else c1
    (ServeOutcome.connected clientID, runStep s (HubEvent.register c2))

/-! Concrete fixtures used by witnesses and counterexamples. -/

/-- A marshaller that always succeeds, the model encoding. -/
def mOk : Message → Except String Json := fun m => Except.ok (marshalMessage m)

/-- A marshaller that always fails (an unmarshalable payload). -/
def mBad : Message → Except String Json := fun _ => Except.error "unsupported type"

/-- A sample envelope. -/
def msg0 : Message := NewTaskUpdatedMessage "t" "b" [] none 0

/-- A fresh session. -/
def cA : Client := NewClient "a"

/-- A session whose outbound queue is exactly at capacity. -/
def aFull : Client :=
  { id := "a", filters := [], send := List.replicate queueCapacity Json.null,
    sendClosed := false, readDeadline := 0 }

/-- A second fresh session with queue space. -/
def bFree : Client := NewClient "b"

/-- A hub holding one full-queue session and one fresh session. -/
def hubAB : Hub := { clients := [aFull, bFree], relay := [] }

/-- A hub holding a single full-queue session. -/
def hubFull : Hub := { clients := [aFull], relay := [] }

/-- The inbound liveness frame of the spec scenario. -/
def pingFrame : Json := Json.obj [("type", Json.str "ping")]

/-- A session list cannot equal itself extended by one more message. -/
theorem send_append_ne (l : List Json) (d : Json) : l ≠ l ++ [d] := by
  intro hEq
  have := congrArg List.length hEq
  simp at this

/-- `deliverFiltered` never changes the identity of a client, filters, closed
flag or read deadline. -/
theorem deliverFiltered_frame (data : Json) (k v : String) (c : Client) :
    (deliverFiltered data k v c).id = c.id
    ∧ (deliverFiltered data k v c).filters = c.filters
    ∧ (deliverFiltered data k v c).sendClosed = c.sendClosed
    ∧ (deliverFiltered data k v c).readDeadline = c.readDeadline := by
  unfold deliverFiltered
  split <;> [skip; exact ⟨rfl, rfl, rfl, rfl⟩]
  split <;> exact ⟨rfl, rfl, rfl, rfl⟩

/-- C1: `Hub.BroadcastMessage` never blocks its caller: it serializes the
message once and makes a non-blocking push onto the bounded relay; a full
relay drops the message and still returns nil; an error is returned iff
serialization of the message fails; the registry is never touched, so in
particular with zero registered sessions the call never blocks and, when
the message serializes, never errors. -/
theorem broadcastMessage_nonblocking (marshal : Message → Except String Json)
    (h : Hub) (msg : Message) :
    (∀ e, (Hub.BroadcastMessage marshal h msg).2 = some e ↔ marshal msg = Except.error e)
    ∧ (Hub.BroadcastMessage marshal h msg).1.clients = h.clients
    ∧ (∀ data, marshal msg = Except.ok data →
        (Hub.BroadcastMessage marshal h msg).2 = none
        ∧ (Hub.BroadcastMessage marshal h msg).1.relay =
            (if h.relay.length < relayCapacity then h.relay ++ [data] else h.relay)) := by
  cases hm : marshal msg with
  | error e => simp [Hub.BroadcastMessage, hm]
  | ok data =>
      refine ⟨?_, ?_, ?_⟩
      · intro e
        simp only [Hub.BroadcastMessage, hm]
        split <;> simp
      · simp only [Hub.BroadcastMessage, hm]
        split <;> rfl
      · intro d hd
        obtain rfl : data = d := by simpa using hd
        simp only [Hub.BroadcastMessage, hm]
        refine ⟨?_, ?_⟩
        · split <;> rfl
        · split <;> rename_i hc <;> simp [hc]

/-- Witness for C1 at a concrete hub and message. -/
theorem broadcastMessage_nonblocking_witness :
    (∀ e, (Hub.BroadcastMessage mOk NewHub msg0).2 = some e ↔ mOk msg0 = Except.error e)
    ∧ (Hub.BroadcastMessage mOk NewHub msg0).1.clients = NewHub.clients
    ∧ (∀ data, mOk msg0 = Except.ok data →
        (Hub.BroadcastMessage mOk NewHub msg0).2 = none
        ∧ (Hub.BroadcastMessage mOk NewHub msg0).1.relay =
            (if NewHub.relay.length < relayCapacity then NewHub.relay ++ [data] else NewHub.relay)) :=
  broadcastMessage_nonblocking mOk NewHub msg0

/-- C9: a non-GET request is rejected with Method Not Allowed before any
upgrade: no session is constructed or registered, and the hub (in
particular its registry) is unchanged. -/
theorem serveHTTP_rejects_non_get (r : HttpRequest) (clientID : String)
    (s : LoopState) (hm : r.method ≠ "GET") :
    ServeHTTP r clientID s = (ServeOutcome.methodNotAllowed, s) := by
  simp [ServeHTTP, hm]

/-- Witness for C9: a POST upgrade request against a hub with one
registered session. -/
theorem serveHTTP_rejects_non_get_witness :
    ServeHTTP { method := "POST", queryProjectID := "", queryBoardID := "", upgradeOk := true }
        "u1" { hub := hubAB, running := true }
      = (ServeOutcome.methodNotAllowed, { hub := hubAB, running := true }) :=
  serveHTTP_rejects_non_get _ _ _ (by decide)

/-- C5: a filtered broadcast enqueues the serialized message to a
registered session iff the filter of the session maps the key exactly to the
requested value and its queue has space; a session whose filter lacks the
key is left untouched. -/
theorem broadcastToFiltered_delivery (marshal : Message → Except String Json)
    (h : Hub) (msg : Message) (k v : String) (data : Json)
    (hok : marshal msg = Except.ok data) :
    (Hub.BroadcastToFiltered marshal h msg k v).1.clients
        = h.clients.map (deliverFiltered data k v)
    ∧ (∀ c : Client,
        ((deliverFiltered data k v c).send = c.send ++ [data]
          ↔ (c.GetFilter k = some v ∧ c.send.length < queueCapacity))
        ∧ (c.GetFilter k = none → deliverFiltered data k v c = c)) := by
  constructor
  · unfold Hub.BroadcastToFiltered
    rw [hok]
  · intro c
    constructor
    · unfold deliverFiltered
      split
      · split
        · rename_i hf hlt
          exact ⟨fun _ => ⟨hf, hlt⟩, fun _ => rfl⟩
        · rename_i hf hlt
          exact ⟨fun hc => absurd hc (send_append_ne _ _),
                 fun hand => absurd hand.2 hlt⟩
      · rename_i hf
        exact ⟨fun hc => absurd hc (send_append_ne _ _),
               fun hand => absurd hand.1 hf⟩
    · intro hnone
      unfold deliverFiltered
      split
      · rename_i hf
        rw [hnone] at hf
        cases hf
      · rfl

/-- Witness for C5 at a concrete hub, message and filter. -/
theorem broadcastToFiltered_delivery_witness :
    (Hub.BroadcastToFiltered mOk hubAB msg0 "project_id" "p1").1.clients
        = hubAB.clients.map (deliverFiltered (marshalMessage msg0) "project_id" "p1")
    ∧ (∀ c : Client,
        ((deliverFiltered (marshalMessage msg0) "project_id" "p1" c).send
            = c.send ++ [marshalMessage msg0]
          ↔ (c.GetFilter "project_id" = some "p1" ∧ c.send.length < queueCapacity))
        ∧ (c.GetFilter "project_id" = none →
            deliverFiltered (marshalMessage msg0) "project_id" "p1" c = c)) :=
  broadcastToFiltered_delivery mOk hubAB msg0 "project_id" "p1" (marshalMessage msg0) rfl

/-- C10: a filtered broadcast never changes the registry: the set of
registered sessions (their identities and closed flags, and the registry
size) is the same before and after, and a matching session with a full
queue is merely skipped — it stays registered unchanged.  A failing
serialization leaves the hub untouched as well. -/
theorem broadcastToFiltered_frame (marshal : Message → Except String Json)
    (h : Hub) (msg : Message) (k v : String) :
    (∀ e, marshal msg = Except.error e → (Hub.BroadcastToFiltered marshal h msg k v).1 = h)
    ∧ (∀ data, marshal msg = Except.ok data →
        (Hub.BroadcastToFiltered marshal h msg k v).1.clients.map Client.id
            = h.clients.map Client.id
        ∧ (Hub.BroadcastToFiltered marshal h msg k v).1.clients.map Client.sendClosed
            = h.clients.map Client.sendClosed
        ∧ (Hub.BroadcastToFiltered marshal h msg k v).1.clients.length = h.clients.length
        ∧ (∀ c ∈ h.clients, queueCapacity ≤ c.send.length →
            c ∈ (Hub.BroadcastToFiltered marshal h msg k v).1.clients)) := by
  constructor
  · intro e he
    unfold Hub.BroadcastToFiltered
    rw [he]
  · intro data hok
    have hcl : (Hub.BroadcastToFiltered marshal h msg k v).1.clients
        = h.clients.map (deliverFiltered data k v) := by
      unfold Hub.BroadcastToFiltered
      rw [hok]
    refine ⟨?_, ?_, ?_, ?_⟩
    · rw [hcl, List.map_map]
      exact List.map_congr_left fun c _ => (deliverFiltered_frame data k v c).1
    · rw [hcl, List.map_map]
      exact List.map_congr_left fun c _ => (deliverFiltered_frame data k v c).2.2.1
    · rw [hcl, List.length_map]
    · intro c hc hfullq
      rw [hcl]
      refine List.mem_map.mpr ⟨c, hc, ?_⟩
      unfold deliverFiltered
      split
      · split
        · rename_i hlt
          exact absurd hlt (by omega)
        · rfl
      · rfl

/-- Witness for C10: a failing and a succeeding serialization against a
hub holding a full-queue session. -/
theorem broadcastToFiltered_frame_witness :
    (Hub.BroadcastToFiltered mBad hubAB msg0 "project_id" "p1").1 = hubAB
    ∧ (Hub.BroadcastToFiltered mOk hubAB msg0 "project_id" "p1").1.clients.map Client.id
        = hubAB.clients.map Client.id
    ∧ aFull ∈ (Hub.BroadcastToFiltered mOk hubAB msg0 "project_id" "p1").1.clients := by
  refine ⟨(broadcastToFiltered_frame mBad hubAB msg0 "project_id" "p1").1
            "unsupported type" rfl,
          ((broadcastToFiltered_frame mOk hubAB msg0 "project_id" "p1").2
            (marshalMessage msg0) rfl).1,
          ((broadcastToFiltered_frame mOk hubAB msg0 "project_id" "p1").2
            (marshalMessage msg0) rfl).2.2.2 aFull ?_ ?_⟩
  · simp [hubAB]
  · simp [aFull]

/-- C2: when the hub fans out a relayed broadcast, a registered session
whose outbound queue is at capacity is closed and removed from the
registry (it appears among the evicted, closed clients), while every
registered session with queue space receives the message. -/
theorem broadcastToAll_backpressure (h : Hub) (d : Json) (hnd : nodupIds h)
    (c : Client) (hc : c ∈ h.clients) :
    (queueCapacity ≤ c.send.length →
        (∀ x ∈ (h.broadcastToAll d).1.clients, x.id ≠ c.id)
        ∧ { c with sendClosed := true } ∈ (h.broadcastToAll d).2)
    ∧ (c.send.length < queueCapacity →
        { c with send := c.send ++ [d] } ∈ (h.broadcastToAll d).1.clients) := by
  constructor
  · intro hfull
    constructor
    · intro x hx
      obtain ⟨c0, hc0, hdel⟩ := List.mem_filterMap.mp (by simpa [Hub.broadcastToAll] using hx)
      unfold deliverRelay at hdel
      by_cases hlt : c0.send.length < queueCapacity
      · rw [if_pos hlt] at hdel
        obtain rfl := Option.some.inj hdel
        intro hid
        have hco : c0.id = c.id := hid
        have : c0 = c := List.inj_on_of_nodup_map hnd hc0 hc hco
        subst this
        omega
      · rw [if_neg hlt] at hdel
        cases hdel
    · have hmem : c ∈ h.clients.filter (fun x => decide (queueCapacity ≤ x.send.length)) :=
        List.mem_filter.mpr ⟨hc, by simpa using hfull⟩
      have hmap : { c with sendClosed := true } ∈
          (h.clients.filter (fun x => decide (queueCapacity ≤ x.send.length))).map
            (fun x => { x with sendClosed := true }) :=
        List.mem_map_of_mem _ hmem
      exact hmap
  · intro hlt
    have hdel : deliverRelay d c = some { c with send := c.send ++ [d] } := by
      unfold deliverRelay
      rw [if_pos hlt]
    simpa [Hub.broadcastToAll] using List.mem_filterMap.mpr ⟨c, hc, hdel⟩

/-- Witness for C2: in a hub with a full-queue session and a fresh
session, one relayed broadcast evicts and closes the former and delivers
to the latter. -/
theorem broadcastToAll_backpressure_witness :
    (∀ x ∈ (hubAB.broadcastToAll Json.null).1.clients, x.id ≠ aFull.id)
    ∧ { aFull with sendClosed := true } ∈ (hubAB.broadcastToAll Json.null).2
    ∧ { bFree with send := bFree.send ++ [Json.null] } ∈ (hubAB.broadcastToAll Json.null).1.clients := by
  have hnd : nodupIds hubAB := by
    show (hubAB.clients.map Client.id).Nodup
    decide
  have hfull := (broadcastToAll_backpressure hubAB Json.null hnd aFull (by simp [hubAB])).1
    (by decide)
  have hspace := (broadcastToAll_backpressure hubAB Json.null hnd bFree (by simp [hubAB])).2
    (by decide)
  exact ⟨hfull.1, hfull.2, hspace⟩

/-- Counterexample to C6 as stated: the registry is NOT mutated only
through register/unregister — a relayed broadcast against a registry
holding one full-queue session changes the registry directly, inside the
broadcast iteration itself. -/
theorem registry_mutation_counterexample :
    (hubFull.broadcastToAll Json.null).1.clients ≠ hubFull.clients := by
  have h1 : (hubFull.broadcastToAll Json.null).1.clients = [] := rfl
  have h2 : hubFull.clients = [aFull] := rfl
  rw [h1, h2]
  simp

/-- C6 amended: during unfiltered relay delivery the broadcast loop
itself mutates the registry, exactly by evicting full-queue sessions: the
post-broadcast registry consists precisely of the previously registered
sessions with queue space, each updated with the delivered message.
Filtered broadcast, by contrast, never changes the registry membership;
all other registry changes go through the register/unregister cases of
the run loop. -/
theorem registry_mutation_paths (h : Hub) (d : Json) :
    (∀ x, x ∈ (h.broadcastToAll d).1.clients ↔
        ∃ c ∈ h.clients, c.send.length < queueCapacity ∧ x = { c with send := c.send ++ [d] })
    ∧ (∀ marshal msg k v (data : Json), marshal msg = Except.ok data →
        (Hub.BroadcastToFiltered marshal h msg k v).1.clients.map Client.id
          = h.clients.map Client.id) := by
  constructor
  · intro x
    constructor
    · intro hx
      obtain ⟨c, hc, hdel⟩ := List.mem_filterMap.mp (by simpa [Hub.broadcastToAll] using hx)
      unfold deliverRelay at hdel
      by_cases hlt : c.send.length < queueCapacity
      · rw [if_pos hlt] at hdel
        exact ⟨c, hc, hlt, (Option.some.inj hdel).symm⟩
      · rw [if_neg hlt] at hdel
        cases hdel
    · rintro ⟨c, hc, hlt, rfl⟩
      have hdel : deliverRelay d c = some { c with send := c.send ++ [d] } := by
        unfold deliverRelay
        rw [if_pos hlt]
      simpa [Hub.broadcastToAll] using List.mem_filterMap.mpr ⟨c, hc, hdel⟩
  · intro marshal msg k v data hok
    have hcl : (Hub.BroadcastToFiltered marshal h msg k v).1.clients
        = h.clients.map (deliverFiltered data k v) := by
      unfold Hub.BroadcastToFiltered
      rw [hok]
    rw [hcl, List.map_map]
    exact List.map_congr_left fun c _ => (deliverFiltered_frame data k v c).1

/-- Witness for the amended C6: a delivery lands in the post-broadcast
registry via the characterization, and a concrete filtered broadcast
preserves the registry identities. -/
theorem registry_mutation_paths_witness :
    { bFree with send := bFree.send ++ [Json.null] } ∈ (hubAB.broadcastToAll Json.null).1.clients
    ∧ (Hub.BroadcastToFiltered mOk hubAB msg0 "project_id" "p1").1.clients.map Client.id
        = hubAB.clients.map Client.id :=
  ⟨((registry_mutation_paths hubAB Json.null).1 _).mpr
      ⟨bFree, by simp [hubAB], by simp [bFree, NewClient, queueCapacity], rfl⟩,
   (registry_mutation_paths hubAB Json.null).2 mOk msg0 "project_id" "p1"
      (marshalMessage msg0) rfl⟩

/-- C3 (evaluated at the failing input): once the run loop has processed
shutdown, the registry is empty; a register event arriving afterwards is
never consumed, so the loop state — in particular the empty registry —
stays exactly as it is; but a `RegisterClient` call made then never
completes (`registerCallReturns` is false): the send on the unbuffered
register channel has no receiver left, so the call blocks forever instead
of returning as a no-op. -/
theorem register_after_shutdown_blocked :
    Hub.ClientCount (runStep { hub := hubAB, running := true } HubEvent.shutdownReady).hub = 0
    ∧ runStep (runStep { hub := hubAB, running := true } HubEvent.shutdownReady)
        (HubEvent.register (NewClient "x"))
      = runStep { hub := hubAB, running := true } HubEvent.shutdownReady
    ∧ registerCallReturns (runStep { hub := hubAB, running := true } HubEvent.shutdownReady) = false :=
  ⟨rfl, rfl, rfl⟩

/-- C7 amended: an inbound ping frame enqueues exactly one pong envelope
on the outbound queue of the session provided the queue has space (the session
is otherwise untouched, and the enqueued document is the pong envelope
stamped with the current time); a session with a full queue drops the
pong; a parsed frame of any unrecognized kind leaves the session entirely
unchanged. -/
theorem ping_gets_one_pong (now : Nat) (c : Client) :
    (c.send.length < queueCapacity →
        c.handleIncomingMessage now pingFrame
          = { c with send := c.send ++
              [marshalMessage { type := MessageTypePong, timestamp := now, data := none, error := "" }] }
        ∧ unmarshalMessage
            (marshalMessage { type := MessageTypePong, timestamp := now, data := none, error := "" })
          = some { type := MessageTypePong, timestamp := now, data := none, error := "" })
    ∧ (queueCapacity ≤ c.send.length → c.handleIncomingMessage now pingFrame = c)
    ∧ (∀ frame msg, unmarshalMessage frame = some msg →
        msg.type ≠ MessageTypePing → msg.type ≠ MessageTypePong →
        c.handleIncomingMessage now frame = c) := by
  have hred : c.handleIncomingMessage now pingFrame = c.sendPong now := rfl
  refine ⟨?_, ?_, ?_⟩
  · intro hlt
    refine ⟨?_, rfl⟩
    rw [hred]
    simp [Client.sendPong, hlt]
  · intro hfull
    rw [hred]
    simp [Client.sendPong, Nat.not_lt.mpr hfull]
  · intro frame msg hm h1 h2
    unfold Client.handleIncomingMessage
    rw [hm]
    simp [h1, h2]

/-- Witness for the amended C7: a fresh session answers a ping with one
pong; an envelope of kind task.created is ignored. -/
theorem ping_gets_one_pong_witness :
    Client.handleIncomingMessage 5 cA pingFrame
      = { cA with send := cA.send ++
          [marshalMessage { type := MessageTypePong, timestamp := 5, data := none, error := "" }] }
    ∧ Client.handleIncomingMessage 5 cA (Json.obj [("type", Json.str "task.created")]) = cA := by
  refine ⟨((ping_gets_one_pong 5 cA).1 (by decide)).1, ?_⟩
  exact (ping_gets_one_pong 5 cA).2.2 (Json.obj [("type", Json.str "task.created")])
    { type := "task.created", timestamp := 0, data := none, error := "" } rfl
    (by decide) (by decide)

/-- Counterexample to C7 as stated: a session whose outbound queue is at
capacity receives a ping and nothing is enqueued — the pong is dropped,
so it is not the case that every inbound ping enqueues exactly one
pong. -/
theorem ping_gets_one_pong_counterexample :
    Client.handleIncomingMessage 5 aFull pingFrame = aFull
    ∧ queueCapacity ≤ aFull.send.length := by
  exact ⟨rfl, by decide⟩

/-- C8: a task.updated envelope built by `NewTaskUpdatedMessage`,
serialized and parsed back, reproduces the same kind and the same payload
fields (task_id, board_id, action, changes, task). -/
theorem taskUpdated_roundtrip (taskID boardID : String)
    (changes : List (String × Json)) (task : Option Json) (now : Nat) :
    (NewTaskUpdatedMessage taskID boardID changes task now).type = MessageTypeTaskUpdated
    ∧ unmarshalMessage (marshalMessage (NewTaskUpdatedMessage taskID boardID changes task now))
        = some (NewTaskUpdatedMessage taskID boardID changes task now)
    ∧ unmarshalTaskEvent (marshalTaskEvent ⟨taskID, boardID, "updated", changes, task⟩)
        = some ⟨taskID, boardID, "updated", changes, task⟩ := by
  refine ⟨rfl, rfl, ?_⟩
  cases changes <;> cases task <;> rfl

/-- A hub has a client with this identity iff some registry entry carries
that id. -/
theorem hasClient_iff (h : Hub) (c : Client) :
    h.hasClient c = true ↔ ∃ x ∈ h.clients, x.id = c.id := by
  unfold Hub.hasClient
  rw [List.any_eq_true]
  constructor
  · rintro ⟨x, hx, hxe⟩
    exact ⟨x, hx, by simpa using hxe⟩
  · rintro ⟨x, hx, hxe⟩
    exact ⟨x, hx, by simpa using hxe⟩

/-- Registration preserves the at-most-one-session-per-identity
invariant. -/
theorem registerClient_nodup (h : Hub) (c : Client) (hnd : nodupIds h) :
    nodupIds (h.registerClient c) := by
  unfold Hub.registerClient
  split
  · exact hnd
  · rename_i hnot
    unfold nodupIds at *
    rw [List.map_append, List.map_singleton, List.nodup_append]
    refine ⟨hnd, List.nodup_singleton _, ?_⟩
    intro a ha hb
    rw [List.mem_singleton] at hb
    subst hb
    obtain ⟨x, hx, hid⟩ := List.mem_map.mp ha
    exact hnot ((hasClient_iff h c).mpr ⟨x, hx, hid⟩)

/-- Unregistration preserves the at-most-one-session-per-identity
invariant. -/
theorem unregisterClient_nodup (h : Hub) (c : Client) (hnd : nodupIds h) :
    nodupIds (h.unregisterClient c).1 := by
  unfold Hub.unregisterClient
  split
  · exact List.Nodup.sublist (List.Sublist.map _ (List.filter_sublist _)) hnd
  · exact hnd

/-- Removing the (unique) entry carrying a present identity shrinks a
nodup registry by exactly one. -/
theorem filter_length_of_mem_ids (cid : String) :
    ∀ l : List Client, (l.map Client.id).Nodup →
      (∃ x ∈ l, x.id = cid) →
      (l.filter (fun x => x.id != cid)).length + 1 = l.length := by
  intro l
  induction l with
  | nil =>
      rintro _ ⟨x, hx, _⟩
      cases hx
  | cons a xs ih =>
      intro hnd hex
      rw [List.map_cons] at hnd
      have hnd1 := List.nodup_cons.mp hnd
      by_cases ha : a.id = cid
      · have hkeep : xs.filter (fun x => x.id != cid) = xs := by
          apply List.filter_eq_self.mpr
          intro y hy
          have hyne : y.id ≠ cid := by
            intro he
            exact hnd1.1 ((List.mem_map (f := Client.id)).mpr ⟨y, hy, he.trans ha.symm⟩)
          simpa using hyne
        have hfa : (a.id != cid) = false := by simpa using ha
        rw [List.filter_cons_of_neg (by simp [hfa]), hkeep]
        simp
      · obtain ⟨x, hx, hxid⟩ := hex
        rcases List.mem_cons.mp hx with rfl | hx2
        · exact absurd hxid ha
        · have hrec := ih hnd1.2 ⟨x, hx2, hxid⟩
          rw [List.filter_cons_of_pos (by simpa using ha)]
          simp only [List.length_cons]
          omega

/-- Registering grows the registry by one exactly when the identity was
absent. -/
theorem registerClient_count (h : Hub) (c : Client) :
    Hub.ClientCount (h.registerClient c)
      = Hub.ClientCount h + (if h.hasClient c then 0 else 1) := by
  unfold Hub.registerClient Hub.ClientCount
  split <;> simp_all

/-- Unregistering shrinks a nodup registry by one exactly when the
identity was present. -/
theorem unregisterClient_count (h : Hub) (c : Client) (hnd : nodupIds h) :
    Hub.ClientCount (h.unregisterClient c).1 + (if h.hasClient c then 1 else 0)
      = Hub.ClientCount h := by
  unfold Hub.unregisterClient
  by_cases hc : h.hasClient c = true
  · simp only [hc, if_pos]
    show (h.clients.filter (fun x => x.id != c.id)).length + 1 = h.clients.length
    exact filter_length_of_mem_ids c.id h.clients hnd ((hasClient_iff h c).mp hc)
  · simp [hc]

/-- The running-hub count invariant: along any Register/Unregister
sequence, final count plus effective unregistrations equals initial count
plus effective registrations. -/
theorem regops_count_invariant :
    ∀ (ops : List RegOp) (h : Hub), nodupIds h →
      Hub.ClientCount (applyRegOps h ops) + effectiveUnregisters h ops
        = Hub.ClientCount h + effectiveRegisters h ops := by
  intro ops
  induction ops with
  | nil =>
      intro h _
      simp [applyRegOps, effectiveRegisters, effectiveUnregisters]
  | cons op rest ih =>
      intro h hnd
      cases op with
      | reg c =>
          have ih2 := ih (h.registerClient c) (registerClient_nodup h c hnd)
          have hcnt := registerClient_count h c
          simp only [applyRegOps, List.foldl_cons, applyRegOp,
            effectiveRegisters, effectiveUnregisters] at *
          by_cases hc : h.hasClient c = true <;> simp [hc] at hcnt ⊢ <;> omega
      | unreg c =>
          have ih2 := ih (h.unregisterClient c).1 (unregisterClient_nodup h c hnd)
          have hcnt := unregisterClient_count h c hnd
          simp only [applyRegOps, List.foldl_cons, applyRegOp,
            effectiveRegisters, effectiveUnregisters] at *
          by_cases hc : h.hasClient c = true <;> simp [hc] at hcnt ⊢ <;> omega

/-- Counterexample to C4 as stated: two Register calls for the same
session give a registry of size 1, but the raw number of registrations
minus the effective unregistrations is 2. -/
theorem register_count_counterexample :
    Hub.ClientCount (applyRegOps NewHub [RegOp.reg cA, RegOp.reg cA])
      ≠ totalRegisters [RegOp.reg cA, RegOp.reg cA]
        - effectiveUnregisters NewHub [RegOp.reg cA, RegOp.reg cA] := by
  decide

/-- C4 amended: for any Register/Unregister sequence from the empty hub,
the client count equals the number of registrations that targeted a
not-yet-present session (re-registering a present session is a no-op for
the registry) minus the number of unregistrations that targeted a
still-present session; unregistering an absent session is a no-op, and
unregistering a present session removes it and closes its outbound
queue. -/
theorem register_unregister_count (ops : List RegOp) :
    (Hub.ClientCount (applyRegOps NewHub ops)
        = effectiveRegisters NewHub ops - effectiveUnregisters NewHub ops
     ∧ effectiveUnregisters NewHub ops ≤ effectiveRegisters NewHub ops)
    ∧ (∀ (h : Hub) (c : Client), h.hasClient c = false → h.unregisterClient c = (h, []))
    ∧ (∀ (h : Hub) (c : Client), nodupIds h → h.hasClient c = true →
        Hub.ClientCount (h.unregisterClient c).1 + 1 = Hub.ClientCount h
        ∧ (h.unregisterClient c).1.hasClient c = false
        ∧ ∀ x ∈ (h.unregisterClient c).2, x.sendClosed = true) := by
  have hnd0 : nodupIds NewHub := List.nodup_nil
  have hinv := regops_count_invariant ops NewHub hnd0
  refine ⟨⟨?_, ?_⟩, ?_, ?_⟩
  · have h0 : Hub.ClientCount NewHub = 0 := rfl
    omega
  · have h0 : Hub.ClientCount NewHub = 0 := rfl
    omega
  · intro h c hab
    unfold Hub.unregisterClient
    rw [if_neg (by simp [hab])]
  · intro h c hnd hc
    refine ⟨?_, ?_, ?_⟩
    · have := unregisterClient_count h c hnd
      rw [if_pos hc] at this
      exact this
    · unfold Hub.unregisterClient
      rw [if_pos hc]
      show List.any _ _ = false
      rw [List.any_eq_false]
      intro x hx
      have := (List.mem_filter.mp hx).2
      simpa using bne_iff_ne.mp this
    · intro x hx
      unfold Hub.unregisterClient at hx
      rw [if_pos hc] at hx
      obtain ⟨y, _, rfl⟩ := List.mem_map.mp hx
      rfl

/-- Witness for the amended C4: a register/unregister pair from the empty
hub, an unregister against an empty hub, and an unregister of the only
session of a one-session hub. -/
theorem register_unregister_count_witness :
    Hub.ClientCount (applyRegOps NewHub [RegOp.reg cA, RegOp.unreg cA])
        = effectiveRegisters NewHub [RegOp.reg cA, RegOp.unreg cA]
          - effectiveUnregisters NewHub [RegOp.reg cA, RegOp.unreg cA]
    ∧ NewHub.unregisterClient cA = (NewHub, [])
    ∧ Hub.ClientCount (hubFull.unregisterClient aFull).1 + 1 = Hub.ClientCount hubFull := by
  refine ⟨(register_unregister_count [RegOp.reg cA, RegOp.unreg cA]).1.1,
          (register_unregister_count []).2.1 NewHub cA rfl,
          ((register_unregister_count []).2.2 hubFull aFull ?_ (by decide)).1⟩
  show (hubFull.clients.map Client.id).Nodup
  decide

end Cartographer
